import Mathlib

set_option maxHeartbeats 1000000

/-!
Verification of the chat-service real-time fan-out engine against its Go source.

The embedding models the backend's message store (`MessageService.SendMessage`,
`MessageService.GetMessages`, `MessageService.MarkMessageAsRead` in
`internal/services/message.go`), the WebSocket hub's ref-counted subscription
registry (`WebSocketHub.subscribeClient` / `unsubscribeClient` in
`internal/services/user.go`), the inbound frame dispatcher (`Client.handleFrame`),
and the token-bucket rate limiter (`middleware.TokenBucket` / `RateLimiter`).

Conventions:
* Go `int64` identifiers and wall-clock instants are modelled as `Nat` measured in
  milliseconds since the epoch; all values involved are non-negative and far below
  2^63, so 64-bit overflow does not occur and the model needs no wrap-around.
* The MongoDB `messages` collection is modelled as a `List Message` in insertion
  (natural) order.  `InsertOne` fails with a duplicate-key error exactly when a row
  with the same `(conversationId, senderId, clientMsgId)` triple already exists
  (the unique index created in `pkg/database/mongodb.go`, `createIndexes`), and
  `FindOne` without a sort returns the first matching row in natural order.
* Fallible Go calls are modelled with `Option`.
-/

namespace ChatService

/-- Model of `models.Message` (internal/models/models.go): the persisted message row.
`id` is the snowflake `_id`, `createdAt` is the creation instant in ms. -/
structure Message where
  id : Nat
  conversationId : String
  senderId : String
  clientMsgId : String
  body : String
  createdAt : Nat
  deriving DecidableEq, Repr

/-- Model of `generateSnowflakeID` (message.go lines 176-180): `return time.Now().UnixMilli()`.
The function's whole output is the raw wall-clock millisecond count; there are no
worker bits and no per-millisecond sequence. -/
def generateSnowflakeID (nowMillis : Nat) : Nat := nowMillis

/-- The unique-index triple `(conversationId, senderId, clientMsgId)` from
`createIndexes` (mongodb.go lines 101-112). -/
def sameTriple (m : Message) (conversationId senderId clientMsgId : String) : Bool :=
  m.conversationId == conversationId && m.senderId == senderId &&
    m.clientMsgId == clientMsgId

/-- Model of `models.WSMessageNewData` as published to NATS JetStream by `SendMessage`. -/
structure PublishedMessage where
  id : Nat
  conversationId : String
  senderId : String
  body : String
  createdAt : Nat
  deriving DecidableEq, Repr

/-- Result of one `SendMessage` call: the returned message (`none` models the
error return), the messages collection afterwards, and what was published to the
durable bus by this call. -/
structure SendOutcome where
  result : Option Message
  store : List Message
  published : List PublishedMessage
  deriving DecidableEq, Repr

/-- Model of `MessageService.SendMessage` (message.go lines 28-80).  A snowflake id and
`CreatedAt = time.Now()` are assigned and the row is inserted.  `InsertOne`
fails with a duplicate-key error (E11000) when the new row collides with the
`_id` primary key — `models.Message.ID` maps to `_id`, which MongoDB always
keeps unique across the whole collection — or with the unique
`(conversationId, senderId, clientMsgId)` index.  `IsDuplicateKeyError` does
not distinguish the two: on any duplicate-key error the code reads back by the
triple and returns that row when it exists; when only the `_id` collided the
read-back finds nothing and `SendMessage` returns an error (`none`).  The
publish to NATS happens only after a successful insert.  The body is inserted
as-is: `SendMessage` performs no length check. -/
def sendMessage (store : List Message)
    (conversationId senderId clientMsgId body : String) (nowMillis : Nat) :
    SendOutcome :=
  let messageID := generateSnowflakeID nowMillis
  let message : Message :=
    ⟨messageID, conversationId, senderId, clientMsgId, body, nowMillis⟩
  if store.any (fun m =>
      m.id == messageID || sameTriple m conversationId senderId clientMsgId) then
    match store.find? (fun m => sameTriple m conversationId senderId clientMsgId) with
    | some existing => ⟨some existing, store, []⟩
    | none => ⟨none, store, []⟩
  else
    ⟨some message, store ++ [message],
      [⟨message.id, message.conversationId, message.senderId, message.body,
        message.createdAt⟩]⟩

/-! ### Pagination (`MessageService.GetMessages`, message.go lines 82-136) -/

/-- The `before` query parameter as `GetMessages` sees it after `time.Parse`:
absent (the empty string), present but not parseable as RFC3339, or parsed to an
instant (ms).  The Go code treats the first two cases identically. -/
inductive BeforeCursor where
  | missing
  | invalid
  | valid (ms : Nat)
  deriving DecidableEq, Repr

/-- Model of `CreatedAt.Format(time.RFC3339)` (message.go line 128): the RFC3339 layout
carries whole seconds only, so the cursor string is represented by the number of
whole seconds it encodes. -/
def rfc3339Format (ms : Nat) : Nat := ms / 1000

/-- Model of `time.Parse(time.RFC3339, before)` applied to a cursor string produced by
`rfc3339Format`: the whole-second instant, back in milliseconds. -/
def rfc3339Parse (sec : Nat) : Nat := sec * 1000

/-- The Mongo sort `{createdAt: -1, _id: -1}`: `a` sorts no later than `b` in the
returned (descending) order. -/
def keyLE (a b : Message) : Prop :=
  b.createdAt < a.createdAt ∨ (b.createdAt = a.createdAt ∧ b.id ≤ a.id)

instance : DecidableRel keyLE := fun a b =>
  decidable_of_iff
    (b.createdAt < a.createdAt ∨ (b.createdAt = a.createdAt ∧ b.id ≤ a.id)) Iff.rfl

instance : IsTotal Message keyLE := ⟨fun a b => by unfold keyLE; omega⟩

instance : IsTrans Message keyLE := ⟨fun a b c hab hbc => by unfold keyLE at *; omega⟩

/-- Limit normalisation in `GetMessages` (message.go lines 101-104):
`if limit <= 0 || limit > 100 { limit = 50 }`. -/
def effectiveLimit (limit : Int) : Nat :=
  if limit ≤ 0 ∨ 100 < limit then 50 else limit.toNat

/-- Model of `models.PaginatedMessagesResponse`; `nextCursor = none` models the empty
cursor string. -/
structure PageResult where
  messages : List Message
  hasMore : Bool
  nextCursor : Option Nat
  deriving DecidableEq, Repr

/-- The rows of one conversation, in natural order. -/
def conversationMessages (store : List Message) (conversationId : String) :
    List Message :=
  store.filter (fun m => m.conversationId == conversationId)

/-- The `createdAt: {$lt: beforeTime}` clause of the Mongo filter; the Go code
builds the conversation-only filter when the cursor is absent or unparseable. -/
def applyCursor (msgs : List Message) : BeforeCursor → List Message
  | .valid ms => msgs.filter (fun m => m.createdAt < ms)
  | _ => msgs

/-- Model of `MessageService.GetMessages`: filter by conversation (and cursor), sort by
`(createdAt desc, _id desc)`, fetch `limit + 1` rows to detect `hasMore`, trim to
`limit`, and derive `nextCursor` from the last returned row's creation time. -/
def getMessages (store : List Message) (conversationId : String)
    (before : BeforeCursor) (limit : Int) : PageResult :=
  let filtered := applyCursor (conversationMessages store conversationId) before
  let lim := effectiveLimit limit
  let fetched := (List.insertionSort keyLE filtered).take (lim + 1)
  let hasMore : Bool := decide (lim < fetched.length)
  let messages := if lim < fetched.length then fetched.take lim else fetched
  let nextCursor :=
    if hasMore then messages.getLast?.map (fun m => rfc3339Format m.createdAt)
    else none
  ⟨messages, hasMore, nextCursor⟩

/-- Paging loop of the completeness property: call `getMessages`, and while
`hasMore` holds follow `nextCursor` (the client sends back the RFC3339 string,
which parses to a whole-second instant).  `fuel` bounds the number of round
trips so the loop is total. -/
def collectPages (store : List Message) (conversationId : String) (limit : Int) :
    Nat → BeforeCursor → List Message
  | 0, _ => []
  | fuel + 1, before =>
    let r := getMessages store conversationId before limit
    if r.hasMore then
      match r.nextCursor with
      | some sec =>
          r.messages ++
            collectPages store conversationId limit fuel (.valid (rfc3339Parse sec))
      | none => r.messages
    else r.messages

/-! ### Ref-counted subscription registry (`WebSocketHub`, user.go lines 318-374)

The hub's `subscriptions` map is modelled as a function from conversation id to an
optional member list (a `ConversationSubscription`'s `Clients` map, as a
duplicate-free list of client ids), and each client's own `subscriptions` set as a
function from client id to a conversation-id list.  `busOpens` counts the calls to
`setupNATSSubscriptions` (each opens the set of three NATS subscriptions for the
conversation) and `busReleases` counts the cleanup blocks that unsubscribe that
set, so the theorems can speak about how many times the underlying bus
subscriptions were opened and released. -/

/-- Insertion into a Go map used as a set: `m[k] = v` leaves the key set unchanged
when the key is already present. -/
def addMember (members : List String) (x : String) : List String :=
  if x ∈ members then members else members ++ [x]

/-- The state of `WebSocketHub` relevant to subscription ref-counting. -/
@[ext]
structure HubState where
  subs : String → Option (List String)
  clientSubs : String → List String
  busOpens : Nat
  busReleases : Nat

/-- A hub with no subscription records. -/
def emptyHub : HubState := ⟨fun _ => none, fun _ => [], 0, 0⟩

/-- Model of `WebSocketHub.subscribeClient` (user.go lines 318-341): create the record and
open the NATS subscriptions on first local subscriber, then add the client to the
record's member map and the conversation to the client's own set. -/
def subscribeClient (st : HubState) (clientId conversationId : String) : HubState :=
  match st.subs conversationId with
  | none =>
    { subs := fun c => if c = conversationId then some [clientId] else st.subs c
      clientSubs := fun cl =>
        if cl = clientId then addMember (st.clientSubs cl) conversationId
        else st.clientSubs cl
      busOpens := st.busOpens + 1
      busReleases := st.busReleases }
  | some members =>
    { subs := fun c =>
        if c = conversationId then some (addMember members clientId) else st.subs c
      clientSubs := fun cl =>
        if cl = clientId then addMember (st.clientSubs cl) conversationId
        else st.clientSubs cl
      busOpens := st.busOpens
      busReleases := st.busReleases }

/-- Model of `WebSocketHub.unsubscribeClient` (user.go lines 343-374): return when no
record exists; otherwise remove the client from the record and the conversation
from the client's set, and when the membership count reaches zero release the
NATS subscriptions and delete the record. -/
def unsubscribeClient (st : HubState) (clientId conversationId : String) :
    HubState :=
  match st.subs conversationId with
  | none => st
  | some members =>
    let members' := members.erase clientId
    let newClientSubs := fun cl =>
      if cl = clientId then (st.clientSubs cl).erase conversationId
      else st.clientSubs cl
    if members'.length = 0 then
      { subs := fun c => if c = conversationId then none else st.subs c
        clientSubs := newClientSubs
        busOpens := st.busOpens
        busReleases := st.busReleases + 1 }
    else
      { subs := fun c => if c = conversationId then some members' else st.subs c
        clientSubs := newClientSubs
        busOpens := st.busOpens
        busReleases := st.busReleases }

/-! ### Token-bucket rate limiter (`internal/middleware`, the rate-limit file) -/

/-- Model of `middleware.TokenBucket`.  `refillRate` is the refill quantum in ms; Go stores
a `time.Duration` but only the quotient `elapsed / refillRate` is ever used, so
milliseconds lose nothing.  `tokens` starts at `capacity` and is only ever
decremented when positive, so it stays non-negative and is a `Nat`. -/
structure TokenBucket where
  capacity : Nat
  tokens : Nat
  refillRate : Nat
  lastRefill : Nat
  deriving DecidableEq, Repr

/-- Model of `NewTokenBucket`: full bucket, `lastRefill = time.Now()`. -/
def newTokenBucket (capacity refillRate now : Nat) : TokenBucket :=
  ⟨capacity, capacity, refillRate, now⟩

/-- The lazy refill at the top of `TokenBucket.Allow`: add
`elapsed / refillRate` tokens (capped at capacity) and advance `lastRefill`, but
only when at least one token accrued.  Go computes `elapsed` as a signed duration
that is non-negative under a monotone clock, matching truncated `Nat`
subtraction. -/
def TokenBucket.refill (tb : TokenBucket) (now : Nat) : TokenBucket :=
  let tokensToAdd := (now - tb.lastRefill) / tb.refillRate
  if 0 < tokensToAdd then
    { tb with tokens := min tb.capacity (tb.tokens + tokensToAdd), lastRefill := now }
  else tb

/-- Model of `TokenBucket.Allow`: refill lazily, then consume one token and return true,
or return false leaving the bucket as the refill left it. -/
def TokenBucket.allow (tb : TokenBucket) (now : Nat) : Bool × TokenBucket :=
  let tb' := tb.refill now
  if 0 < tb'.tokens then (true, { tb' with tokens := tb'.tokens - 1 })
  else (false, tb')

/-- Model of `RateLimiter`: the per-user bucket map, modelled as an association list. -/
structure RateLimiter where
  buckets : List (String × TokenBucket)
  deriving DecidableEq, Repr

/-- Store a bucket under a key, replacing any existing entry (Go map write; the
Go code mutates the stored bucket in place through its pointer). -/
def setBucket (l : List (String × TokenBucket)) (k : String) (v : TokenBucket) :
    List (String × TokenBucket) :=
  match l with
  | [] => [(k, v)]
  | (k', v') :: rest =>
    if k' == k then (k, v) :: rest else (k', v') :: setBucket rest k v

/-- Model of `RateLimiter.Allow`: look the sender's bucket up, lazily creating it with
capacity 10 and a 500 ms refill quantum (10 messages per 5 seconds), then run
`TokenBucket.Allow` on it. -/
def RateLimiter.allow (rl : RateLimiter) (userId : String) (now : Nat) :
    Bool × RateLimiter :=
  let bucket :=
    match rl.buckets.lookup userId with
    | some b => b
    | none => newTokenBucket 10 500 now
  let r := bucket.allow now
  (r.fst, ⟨setBucket rl.buckets userId r.snd⟩)

/-- A sequence of `RateLimiter.Allow` calls for one user at the given instants,
returning the results in order together with the final limiter state. -/
def allowRun (rl : RateLimiter) (userId : String) : List Nat → List Bool × RateLimiter
  | [] => ([], rl)
  | t :: ts =>
    let r := rl.allow userId t
    let rest := allowRun r.snd userId ts
    (r.fst :: rest.fst, rest.snd)

/-! ### Inbound frame dispatch (`Client.handleFrame`, user.go lines 200-274)

`readPump` decodes each websocket text message with `json.Unmarshal` into
`models.WSFrame{Type string, TS int64, Data interface{}}`.  Decoding JSON into a
Go `interface{}` can only produce `nil`, `bool`, `float64`, `string`,
`[]interface{}` or `map[string]interface{}` values, which `GoValue` enumerates
(numbers are modelled as `Int`; the frames' numeric fields are int64 ids and
flags, and fractional numbers would only add further decode errors).  In
particular a decoded `Data` value is never a `[]byte`. -/

/-- A value of Go type `interface{}` produced by `json.Unmarshal`. -/
inductive GoValue where
  | null
  | bool (b : Bool)
  | num (n : Int)
  | str (s : String)
  | arr (elems : List GoValue)
  | obj (fields : List (String × GoValue))

/-- The non-comma-ok type assertion `frame.Data.([]byte)` in the `subscribe` and
`unsubscribe` cases of `handleFrame`.  `json.Unmarshal` into `interface{}` never
produces a `[]byte` (see `GoValue`), so the assertion can never succeed: its
result type is empty and the assertion itself panics at run time. -/
def goTypeAssertBytes (_ : GoValue) : Option Empty := none

/-- Model of `json.Unmarshal` of a (re-marshalled) value into a string-typed struct field:
a JSON string sets the field, `null` and an absent key leave it at its zero value
`""`, and any other JSON type is an unmarshal type error. -/
def decodeStringField (fields : List (String × GoValue)) (key : String) :
    Option String :=
  match fields.lookup key with
  | none => some ""
  | some .null => some ""
  | some (.str s) => some s
  | some _ => none

/-- Same for a bool-typed field (zero value `false`). -/
def decodeBoolField (fields : List (String × GoValue)) (key : String) :
    Option Bool :=
  match fields.lookup key with
  | none => some false
  | some .null => some false
  | some (.bool b) => some b
  | some _ => none

/-- Same for an int64-typed field (zero value `0`). -/
def decodeIntField (fields : List (String × GoValue)) (key : String) :
    Option Int :=
  match fields.lookup key with
  | none => some 0
  | some .null => some 0
  | some (.num n) => some n
  | some _ => none

/-- Model of `models.WSMessageSendData`. -/
structure WSMessageSendData where
  conversationId : String
  clientMsgId : String
  body : String
  deriving DecidableEq, Repr

/-- Model of `json.Marshal(frame.Data)` followed by `json.Unmarshal` into
`WSMessageSendData`: `null` round-trips to the zero struct, an object decodes
field-wise (unknown keys ignored), and any other JSON value is a type error. -/
def decodeMessageSendData : GoValue → Option WSMessageSendData
  | .null => some ⟨"", "", ""⟩
  | .obj fields => do
    let c ← decodeStringField fields "conversationId"
    let cm ← decodeStringField fields "clientMsgId"
    let b ← decodeStringField fields "body"
    pure ⟨c, cm, b⟩
  | _ => none

/-- Model of `models.WSTypingUpdateData`. -/
structure WSTypingUpdateData where
  conversationId : String
  isTyping : Bool
  deriving DecidableEq, Repr

/-- Decode for the `typing.update` case, same semantics as
`decodeMessageSendData`. -/
def decodeTypingUpdateData : GoValue → Option WSTypingUpdateData
  | .null => some ⟨"", false⟩
  | .obj fields => do
    let c ← decodeStringField fields "conversationId"
    let t ← decodeBoolField fields "isTyping"
    pure ⟨c, t⟩
  | _ => none

/-- Model of `models.WSReceiptReadData`. -/
structure WSReceiptReadData where
  conversationId : String
  messageId : Int
  deriving DecidableEq, Repr

/-- Decode for the `receipt.read` case. -/
def decodeReceiptReadData : GoValue → Option WSReceiptReadData
  | .null => some ⟨"", 0⟩
  | .obj fields => do
    let c ← decodeStringField fields "conversationId"
    let m ← decodeIntField fields "messageId"
    pure ⟨c, m⟩
  | _ => none

/-- An inbound `models.WSFrame` after `readPump`'s `json.Unmarshal`.  The Go
field `Type` is spelt `ftype` (`type` is reserved in Lean). -/
structure WSFrame where
  ftype : String
  ts : Int
  data : GoValue

/-- An outbound frame enqueued on the client's send channel: `message.ack` from
the send path or an `error` frame from `sendError`. -/
inductive OutboundFrame where
  | ack (clientMsgId : String) (id createdAt : Nat)
  | errorFrame (code message : String)
  deriving DecidableEq, Repr

/-- The store-and-bus state `handleFrame` can reach: the messages collection,
the JetStream publishes, the ephemeral typing and receipt publishes, and the
`participants` rows' `lastReadMessageId` markers keyed by
`"conversationId:userId"`. -/
structure EngineState where
  store : List Message
  published : List PublishedMessage
  typingPublished : List (String × String × Bool)
  receiptPublished : List (String × String × Int)
  readMarkers : List (String × Int)
  deriving DecidableEq, Repr

/-- Model of `MessageService.MarkMessageAsRead` (message.go lines 138-164): `UpdateOne`
on `participants` by `_id` (no upsert, so a missing row is a no-op) followed by
an ephemeral receipt publish. -/
def markMessageAsRead (st : EngineState) (conversationId userId : String)
    (messageId : Int) : EngineState :=
  let pid := conversationId ++ ":" ++ userId
  { st with
    readMarkers :=
      st.readMarkers.map (fun e => if e.fst == pid then (e.fst, messageId) else e)
    receiptPublished :=
      st.receiptPublished ++ [(conversationId, userId, messageId)] }

/-- What processing one inbound frame does: either the goroutine panics (an
unrecovered runtime panic), or it completes with the new engine state and the
frames sent back to this client. -/
inductive HandleOutcome where
  | panicked (reason : String)
  | ok (st : EngineState) (sent : List OutboundFrame)
  deriving DecidableEq, Repr

/-- Model of `Client.handleFrame` (user.go lines 200-274).  The `subscribe` and
`unsubscribe` cases perform the type assertion `frame.Data.([]byte)` before
reaching the hub, the `message.send` case re-marshals `frame.Data` and calls
`SendMessage` (no rate-limiter consultation and no body-length check appear on
this path), `typing.update` and `receipt.read` re-marshal and publish, and an
unknown type falls through the switch doing nothing. -/
def handleFrame (st : EngineState) (senderId : String) (frame : WSFrame)
    (nowMillis : Nat) : HandleOutcome :=
  if frame.ftype == "subscribe" then
    match goTypeAssertBytes frame.data with
    | none => .panicked "interface conversion: interface \x7b\x7d is not []uint8"
    | some e => nomatch e
  else if frame.ftype == "unsubscribe" then
    match goTypeAssertBytes frame.data with
    | none => .panicked "interface conversion: interface \x7b\x7d is not []uint8"
    | some e => nomatch e
  else if frame.ftype == "message.send" then
    match decodeMessageSendData frame.data with
    | none => .ok st [.errorFrame "INVALID_DATA" "Invalid message data"]
    | some d =>
      let o := sendMessage st.store d.conversationId senderId d.clientMsgId d.body
        nowMillis
      match o.result with
      | none =>
        .ok { st with store := o.store, published := st.published ++ o.published }
          [.errorFrame "SEND_FAILED" "Failed to send message"]
      | some m =>
        .ok { st with store := o.store, published := st.published ++ o.published }
          [.ack d.clientMsgId m.id m.createdAt]
  else if frame.ftype == "typing.update" then
    match decodeTypingUpdateData frame.data with
    | none => .ok st [.errorFrame "INVALID_DATA" "Invalid typing data"]
    | some d =>
      .ok { st with
            typingPublished :=
              st.typingPublished ++ [(d.conversationId, senderId, d.isTyping)] } []
  else if frame.ftype == "receipt.read" then
    match decodeReceiptReadData frame.data with
    | none => .ok st [.errorFrame "INVALID_DATA" "Invalid receipt data"]
    | some d => .ok (markMessageAsRead st d.conversationId senderId d.messageId) []
  else .ok st []

/-! ### Orders on messages and concrete fixtures -/

/-- Message `a` was created strictly later than `b`. -/
def newerThan (a b : Message) : Prop := b.createdAt < a.createdAt

/-- Messages `a` and `b` were created in different whole seconds (the
granularity the RFC3339 cursor string preserves). -/
def diffSecond (a b : Message) : Prop :=
  a.createdAt / 1000 ≠ b.createdAt / 1000

instance : DecidableRel newerThan := fun a b =>
  decidable_of_iff (b.createdAt < a.createdAt) Iff.rfl

instance : DecidableRel diffSecond := fun a b =>
  decidable_of_iff (a.createdAt / 1000 ≠ b.createdAt / 1000) Iff.rfl

instance : IsAntisymm Message newerThan :=
  ⟨fun _ _ h1 h2 => absurd (Nat.lt_trans h2 h1) (Nat.lt_irrefl _)⟩

/-- An engine with an empty store and no publishes or read markers. -/
def emptyEngine : EngineState := ⟨[], [], [], [], []⟩

/-- The rate limiter after the sender `alice` has spent all 10 tokens of a
fresh bucket within one quantum (10 calls at instant 0). -/
def drainedLimiter : RateLimiter := (allowRun ⟨[]⟩ "alice" (List.replicate 10 0)).snd

/-- A message body one byte over the HTTP handler's 4000-byte cap. -/
def longBody : String := String.mk (List.replicate 4001 'a')

/-- A conversation with 51 persisted messages (distinct ids and distinct
whole-second creation times, newest first in natural order). -/
def limitStore : List Message :=
  (List.range 51).map (fun i => ⟨51 - i, "conv", "alice", toString i, "b", (51 - i) * 1000⟩)

/-- Two messages of one conversation created within the same whole second (at
1999 ms and 1000 ms).  With page size 1 the first page returns the newer row
and hands out the cursor `rfc3339Format 1999 = 1` (whole seconds); the next
page filters `createdAt < 1000` and returns nothing, so the paging loop ends
after yielding 1 of the 2 messages — a gap. -/
def sameSecondStore : List Message :=
  [⟨2, "conv", "alice", "t2", "b2", 1999⟩, ⟨1, "conv", "alice", "t1", "b1", 1000⟩]

/-- A 3-message conversation whose rows lie in three different whole seconds. -/
def distinctSecondStore : List Message :=
  [⟨1, "conv", "alice", "t1", "b1", 1500⟩, ⟨3, "conv", "alice", "t3", "b3", 5200⟩,
   ⟨2, "conv", "alice", "t2", "b2", 3100⟩]

/-! ## Theorems -/

/-- C1: appending twice with an identical `(conversationId, senderId, clientMsgId)`
triple — even with different bodies and at different instants — returns the same
message both times (the first body wins), the second call does not change the
store, and exactly one row with that triple exists afterwards; the second call
resolves to the existing row rather than creating a duplicate.  The hypothesis
`hid` requires the first call's generated snowflake id to collide with no
stored row's `_id`, so the first insert itself succeeds; the second call needs
no such hypothesis, since its insert fails either way and the triple read-back
resolves it. -/
theorem append_idempotent (store : List Message) (c s tok b1 b2 : String)
    (t1 t2 : Nat) (h : ∀ m ∈ store, sameTriple m c s tok = false)
    (hid : ∀ m ∈ store, m.id ≠ generateSnowflakeID t1) :
    ∃ m1 : Message,
      (sendMessage store c s tok b1 t1).result = some m1 ∧
      m1.body = b1 ∧
      (sendMessage (sendMessage store c s tok b1 t1).store c s tok b2 t2).result
        = some m1 ∧
      (sendMessage (sendMessage store c s tok b1 t1).store c s tok b2 t2).store
        = (sendMessage store c s tok b1 t1).store ∧
      ((sendMessage (sendMessage store c s tok b1 t1).store c s tok b2 t2).store.countP
          (fun m => sameTriple m c s tok)) = 1 := by
  have hany : store.any (fun m =>
      m.id == generateSnowflakeID t1 || sameTriple m c s tok) = false :=
    List.any_eq_false.mpr (fun m hm => by simp [h m hm, hid m hm])
  have htriple : sameTriple ⟨generateSnowflakeID t1, c, s, tok, b1, t1⟩ c s tok = true := by
    simp [sameTriple]
  have h1 : sendMessage store c s tok b1 t1
      = ⟨some ⟨generateSnowflakeID t1, c, s, tok, b1, t1⟩,
         store ++ [⟨generateSnowflakeID t1, c, s, tok, b1, t1⟩],
         [⟨generateSnowflakeID t1, c, s, b1, t1⟩]⟩ := by
    unfold sendMessage
    rw [if_neg (by simp [hany])]
  refine ⟨⟨generateSnowflakeID t1, c, s, tok, b1, t1⟩, ?_, rfl, ?_, ?_, ?_⟩
  · rw [h1]
  · rw [h1]
    unfold sendMessage
    rw [if_pos (by simp [List.any_append, htriple]),
      List.find?_append, List.find?_eq_none.mpr (fun m hm => by simp [h m hm])]
    simp [htriple]
  · rw [h1]
    unfold sendMessage
    rw [if_pos (by simp [List.any_append, htriple])]
    split <;> rfl
  · rw [h1]
    unfold sendMessage
    rw [if_pos (by simp [List.any_append, htriple])]
    have hcount : (store ++ [(⟨generateSnowflakeID t1, c, s, tok, b1, t1⟩ : Message)]).countP
        (fun m => sameTriple m c s tok) = 1 := by
      rw [List.countP_append, List.countP_eq_zero.mpr (fun m hm => by simp [h m hm])]
      simp [htriple, List.countP_cons]
    split <;> exact hcount

/-- C1 witness: the idempotency theorem instantiated on an empty store with
concrete ids, two different bodies and two different instants. -/
theorem append_idempotent_witness :
    ∃ m1 : Message,
      (sendMessage [] "conv" "alice" "tok" "first" 17 ).result = some m1 ∧
      m1.body = "first" ∧
      (sendMessage (sendMessage [] "conv" "alice" "tok" "first" 17 ).store
          "conv" "alice" "tok" "second" 42).result = some m1 ∧
      (sendMessage (sendMessage [] "conv" "alice" "tok" "first" 17 ).store
          "conv" "alice" "tok" "second" 42).store
        = (sendMessage [] "conv" "alice" "tok" "first" 17 ).store ∧
      ((sendMessage (sendMessage [] "conv" "alice" "tok" "first" 17 ).store
          "conv" "alice" "tok" "second" 42).store.countP
          (fun m => sameTriple m "conv" "alice" "tok")) = 1 :=
  append_idempotent [] "conv" "alice" "tok" "first" "second" 17 42
    (fun m hm => by simp at hm) (fun m hm => by simp at hm)

/-- C2: the ordering identifier is the raw wall-clock millisecond count, so the
generator assigns two same-millisecond appends the *same* identifier —
`generateSnowflakeID` at equal instants returns equal values.  The later
append therefore never receives a strictly greater identifier: its insert
fails on the duplicate `_id` primary key, the triple read-back finds no row
(different idempotency token), and `SendMessage` returns an error, leaving a
single persisted row.  Here the first send is stored with identifier
1700000000000 and the second send in the same millisecond (different sender
and token) is assigned the same identifier and fails. -/
theorem sendMessage_same_millis_collision :
    ((sendMessage [] "conv" "alice" "tok1" "first" 1700000000000).result.map
        Message.id) = some 1700000000000 ∧
    (sendMessage (sendMessage [] "conv" "alice" "tok1" "first" 1700000000000).store
        "conv" "bob" "tok2" "second" 1700000000000).result = none ∧
    (sendMessage (sendMessage [] "conv" "alice" "tok1" "first" 1700000000000).store
        "conv" "bob" "tok2" "second" 1700000000000).store.length = 1 := by
  refine ⟨rfl, ?_, ?_⟩ <;> rfl

/-- C10: a `before` cursor that does not parse as RFC3339 is silently ignored —
`GetMessages` builds the conversation-only filter, exactly as when no cursor was
supplied, so the call succeeds and returns the newest page. -/
theorem getMessages_invalid_cursor_ignored (store : List Message) (cid : String)
    (limit : Int) :
    getMessages store cid .invalid limit = getMessages store cid .missing limit := rfl

/-- C9 counterexample: with 51 messages in the conversation, a requested limit
of 150 returns 50 messages.  Were the limit clamped to the hard cap 100, the
call would return all 51; instead `GetMessages` replaces any limit above 100
with the default 50. -/
theorem getMessages_limit_over_cap_counterexample :
    (conversationMessages limitStore "conv").length = 51 ∧
    (getMessages limitStore "conv" .missing 150).messages.length = 50 ∧
    (getMessages limitStore "conv" .missing 150).hasMore = true := by
  refine ⟨rfl, ?_, ?_⟩ <;> rfl

/-- C9 amended: a missing or non-positive limit defaults to 50, and a limit
greater than 100 also falls back to the default 50 — the call still succeeds and
behaves exactly as a request with limit 50, rather than being clamped to 100. -/
theorem getMessages_limit_out_of_range_defaults (store : List Message)
    (cid : String) (before : BeforeCursor) (limit : Int)
    (h : limit ≤ 0 ∨ 100 < limit) :
    getMessages store cid before limit = getMessages store cid before 50 := by
  have he : effectiveLimit limit = effectiveLimit 50 := by
    unfold effectiveLimit
    rw [if_pos h, if_neg (by norm_num)]
    decide
  unfold getMessages
  rw [he]

/-- C9 witness: the amended limit behaviour at limit 150 on the 51-message
store. -/
theorem getMessages_limit_out_of_range_defaults_witness :
    getMessages limitStore "conv" .missing 150
      = getMessages limitStore "conv" .missing 50 :=
  getMessages_limit_out_of_range_defaults limitStore "conv" .missing 150
    (by norm_num)

/-- The element `x` is a member of `addMember l x` and re-adding it changes nothing. -/
theorem addMember_self (l : List String) (x : String) :
    addMember (addMember l x) x = addMember l x := by
  unfold addMember
  by_cases hx : x ∈ l
  · simp [hx]
  · simp [hx]

/-- Unfolding equation for `unsubscribeClient` when a subscription record
exists. -/
theorem unsubscribeClient_some (st : HubState) (clientId conv : String)
    (members : List String) (h : st.subs conv = some members) :
    unsubscribeClient st clientId conv =
      (if (members.erase clientId).length = 0 then
        { subs := fun c => if c = conv then none else st.subs c
          clientSubs := fun cl =>
            if cl = clientId then (st.clientSubs cl).erase conv
            else st.clientSubs cl
          busOpens := st.busOpens
          busReleases := st.busReleases + 1 }
      else
        { subs := fun c =>
            if c = conv then some (members.erase clientId) else st.subs c
          clientSubs := fun cl =>
            if cl = clientId then (st.clientSubs cl).erase conv
            else st.clientSubs cl
          busOpens := st.busOpens
          busReleases := st.busReleases }) := by
  unfold unsubscribeClient
  rw [h]

/-- C4: ref-counted subscription lifecycle.  Starting from a hub with no record
for the conversation, the first local subscriber opens the set of bus
subscriptions, the second opens none; subscribing again while already a member
is a no-op; the first unsubscribe releases nothing and keeps the record; the
second unsubscribe releases the bus subscriptions exactly once and removes the
record. -/
theorem refcounted_subscription (st : HubState) (conv a b : String)
    (h0 : st.subs conv = none) (hab : a ≠ b) :
    (subscribeClient st a conv).busOpens = st.busOpens + 1 ∧
    (subscribeClient (subscribeClient st a conv) b conv).busOpens
      = (subscribeClient st a conv).busOpens ∧
    subscribeClient (subscribeClient (subscribeClient st a conv) b conv) a conv
      = subscribeClient (subscribeClient st a conv) b conv ∧
    (unsubscribeClient (subscribeClient (subscribeClient st a conv) b conv) a conv).busReleases
      = st.busReleases ∧
    (unsubscribeClient (subscribeClient (subscribeClient st a conv) b conv) a conv).subs conv
      ≠ none ∧
    (unsubscribeClient
        (unsubscribeClient (subscribeClient (subscribeClient st a conv) b conv) a conv)
        b conv).busReleases = st.busReleases + 1 ∧
    (unsubscribeClient
        (unsubscribeClient (subscribeClient (subscribeClient st a conv) b conv) a conv)
        b conv).busOpens = st.busOpens + 1 ∧
    (unsubscribeClient
        (unsubscribeClient (subscribeClient (subscribeClient st a conv) b conv) a conv)
        b conv).subs conv = none := by
  have h1 : subscribeClient st a conv
      = { subs := fun c => if c = conv then some [a] else st.subs c
          clientSubs := fun cl =>
            if cl = a then addMember (st.clientSubs cl) conv else st.clientSubs cl
          busOpens := st.busOpens + 1
          busReleases := st.busReleases } := by
    unfold subscribeClient
    rw [h0]
  have h2 : subscribeClient (subscribeClient st a conv) b conv
      = { subs := fun c => if c = conv then some [a, b] else st.subs c
          clientSubs := fun cl =>
            if cl = b then addMember (st.clientSubs cl) conv
            else if cl = a then addMember (st.clientSubs cl) conv
            else st.clientSubs cl
          busOpens := st.busOpens + 1
          busReleases := st.busReleases } := by
    rw [h1]
    unfold subscribeClient
    simp only [if_pos rfl]
    have haddb : addMember [a] b = [a, b] := by
      unfold addMember
      simp [List.mem_singleton, (Ne.symm hab)]
    refine HubState.ext ?_ ?_ rfl rfl
    · funext c
      by_cases hc : c = conv <;> simp [hc, haddb]
    · funext cl
      by_cases hb : cl = b
      · subst hb
        simp [Ne.symm hab]
      · simp [hb]
  -- first unsubscribe: one member remains, nothing is released
  have hS2subs : (subscribeClient (subscribeClient st a conv) b conv).subs conv
      = some [a, b] := by
    rw [h2]
    simp
  have h3 := unsubscribeClient_some _ a conv [a, b] hS2subs
  rw [show ([a, b] : List String).erase a = [b] by simp [List.erase_cons]] at h3
  rw [if_neg (by simp)] at h3
  have hS3subs : (unsubscribeClient
      (subscribeClient (subscribeClient st a conv) b conv) a conv).subs conv
      = some [b] := by
    rw [h3]
    simp
  -- second unsubscribe: membership reaches zero, release once and delete
  have h4 := unsubscribeClient_some _ b conv [b] hS3subs
  rw [show ([b] : List String).erase b = ([] : List String) by simp] at h4
  rw [if_pos (show ([] : List String).length = 0 from rfl)] at h4
  have hS2rel : (subscribeClient (subscribeClient st a conv) b conv).busReleases
      = st.busReleases := by rw [h2]
  have hS2opens : (subscribeClient (subscribeClient st a conv) b conv).busOpens
      = st.busOpens + 1 := by rw [h2]
  have hS3rel : (unsubscribeClient
      (subscribeClient (subscribeClient st a conv) b conv) a conv).busReleases
      = st.busReleases := by
    rw [h3]
    exact hS2rel
  have hS3opens : (unsubscribeClient
      (subscribeClient (subscribeClient st a conv) b conv) a conv).busOpens
      = st.busOpens + 1 := by
    rw [h3]
    exact hS2opens
  refine ⟨by rw [h1], by rw [h2, h1], ?_, by rw [h3]; exact hS2rel, by rw [h3]; simp,
    by rw [h4]; exact congrArg (fun n => n + 1) hS3rel, by rw [h4]; exact hS3opens,
    by rw [h4]; simp⟩
  -- subscribing while already a member is a no-op
  rw [h2]
  unfold subscribeClient
  simp only [if_pos rfl]
  refine HubState.ext ?_ ?_ rfl rfl
  · funext c
    by_cases hc : c = conv <;> simp [hc, addMember, List.mem_cons]
  · funext cl
    by_cases ha : cl = a
    · subst ha
      simp [hab, addMember_self]
    · simp [ha]

/-- C4 witness: the lifecycle theorem on the empty hub with two concrete
sessions. -/
theorem refcounted_subscription_witness :
    (subscribeClient emptyHub "a" "conv").busOpens = emptyHub.busOpens + 1 ∧
    (subscribeClient (subscribeClient emptyHub "a" "conv") "b" "conv").busOpens
      = (subscribeClient emptyHub "a" "conv").busOpens ∧
    subscribeClient (subscribeClient (subscribeClient emptyHub "a" "conv") "b" "conv") "a" "conv"
      = subscribeClient (subscribeClient emptyHub "a" "conv") "b" "conv" ∧
    (unsubscribeClient (subscribeClient (subscribeClient emptyHub "a" "conv") "b" "conv") "a" "conv").busReleases
      = emptyHub.busReleases ∧
    (unsubscribeClient (subscribeClient (subscribeClient emptyHub "a" "conv") "b" "conv") "a" "conv").subs "conv"
      ≠ none ∧
    (unsubscribeClient
        (unsubscribeClient (subscribeClient (subscribeClient emptyHub "a" "conv") "b" "conv") "a" "conv")
        "b" "conv").busReleases = emptyHub.busReleases + 1 ∧
    (unsubscribeClient
        (unsubscribeClient (subscribeClient (subscribeClient emptyHub "a" "conv") "b" "conv") "a" "conv")
        "b" "conv").busOpens = emptyHub.busOpens + 1 ∧
    (unsubscribeClient
        (unsubscribeClient (subscribeClient (subscribeClient emptyHub "a" "conv") "b" "conv") "a" "conv")
        "b" "conv").subs "conv" = none :=
  refcounted_subscription emptyHub "conv" "a" "b" rfl (by decide)

/-- C5: processing a `subscribe` (or `unsubscribe`) frame panics.  The frame
dispatcher's type assertion `frame.Data.([]byte)` can never succeed on a
JSON-decoded value, so even a perfectly well-formed subscribe payload crashes
the reading goroutine instead of being handled or answered with an error
frame. -/
theorem handleFrame_subscribe_panics :
    handleFrame emptyEngine "alice"
        ⟨"subscribe", 0, .obj [("conversationId", .str "c1")]⟩ 0
      = .panicked "interface conversion: interface \x7b\x7d is not []uint8" ∧
    handleFrame emptyEngine "alice"
        ⟨"unsubscribe", 0, .obj [("conversationId", .str "c1")]⟩ 0
      = .panicked "interface conversion: interface \x7b\x7d is not []uint8" ∧
    handleFrame emptyEngine "alice" ⟨"subscribe", 0, .str "garbage"⟩ 0
      = .panicked "interface conversion: interface \x7b\x7d is not []uint8" :=
  ⟨rfl, rfl, rfl⟩

/-- C6: the frame dispatcher's `message.send` path never consults the token
bucket.  Even at an instant where the sender's bucket is exhausted (`Allow`
would return false), the inbound message is persisted and acknowledged, and no
rate-limit error frame is produced: `handleFrame` does not reference the
limiter at all, and `main.go` never installs `MessageRateLimitMiddleware` on
any route. -/
theorem send_path_ignores_rate_limiter :
    (drainedLimiter.allow "alice" 0).fst = false ∧
    handleFrame emptyEngine "alice"
        ⟨"message.send", 0, .obj [("conversationId", .str "c1"),
          ("clientMsgId", .str "m1"), ("body", .str "hello")]⟩ 0
      = .ok ⟨[⟨0, "c1", "alice", "m1", "hello", 0⟩],
          [⟨0, "c1", "alice", "hello", 0⟩], [], [], []⟩
          [.ack "m1" 0 0] := by
  exact ⟨by decide, rfl⟩

/-- C8: `SendMessage` enforces no body-length cap on the persistent-connection
path: a body longer than 4000 bytes is persisted unchanged, published to the
bus, and acknowledged — nothing rejects it.  (Only the HTTP handler
`Handlers.SendMessage` checks `len(req.Body) > 4000`; the store itself and the
WebSocket `message.send` path do not.)  The hypotheses make this a fresh,
otherwise-successful send — no stored row carries the same idempotency triple
or an `_id` equal to the generated snowflake id — so the insert succeeds and
the only thing that could have rejected the over-long body is the missing
length check. -/
theorem append_no_body_length_cap (store : List Message) (c s tok body : String)
    (t : Nat) (hlen : 4000 < body.length)
    (h : ∀ m ∈ store, sameTriple m c s tok = false)
    (hid : ∀ m ∈ store, m.id ≠ generateSnowflakeID t) :
    ∃ m : Message,
      (sendMessage store c s tok body t).result = some m ∧
      m.body = body ∧
      (sendMessage store c s tok body t).store = store ++ [m] ∧
      (sendMessage store c s tok body t).published = [⟨m.id, c, s, body, t⟩] ∧
      (∀ st : EngineState, st.store = store →
        handleFrame st s ⟨"message.send", 0, .obj [("conversationId", .str c),
            ("clientMsgId", .str tok), ("body", .str body)]⟩ t
          = .ok { st with
                    store := store ++ [m]
                    published := st.published ++ [⟨m.id, c, s, body, t⟩] }
              [.ack tok m.id m.createdAt]) := by
  have hany : store.any (fun m =>
      m.id == generateSnowflakeID t || sameTriple m c s tok) = false :=
    List.any_eq_false.mpr (fun m hm => by simp [h m hm, hid m hm])
  have h1 : sendMessage store c s tok body t
      = ⟨some ⟨generateSnowflakeID t, c, s, tok, body, t⟩,
         store ++ [⟨generateSnowflakeID t, c, s, tok, body, t⟩],
         [⟨generateSnowflakeID t, c, s, body, t⟩]⟩ := by
    unfold sendMessage
    rw [if_neg (by simp [hany])]
  refine ⟨⟨generateSnowflakeID t, c, s, tok, body, t⟩, by rw [h1], rfl, by rw [h1],
    by rw [h1], ?_⟩
  intro st hst
  have hdec : decodeMessageSendData (.obj [("conversationId", .str c),
      ("clientMsgId", .str tok), ("body", .str body)]) = some ⟨c, tok, body⟩ := by
    simp [decodeMessageSendData, decodeStringField, List.lookup]
  simp only [handleFrame]
  rw [if_neg (by decide), if_neg (by decide), if_pos (by decide), hdec]
  simp only [hst, h1]

/-- C8 witness: the missing-length-cap theorem at a concrete 4001-byte body on
an empty store. -/
theorem append_no_body_length_cap_witness :
    4000 < longBody.length ∧
    ∃ m : Message,
      (sendMessage [] "c1" "alice" "tok" longBody 0).result = some m ∧
      m.body = longBody ∧
      (sendMessage [] "c1" "alice" "tok" longBody 0).store = [] ++ [m] ∧
      (sendMessage [] "c1" "alice" "tok" longBody 0).published
        = [⟨m.id, "c1", "alice", longBody, 0⟩] ∧
      (∀ st : EngineState, st.store = [] →
        handleFrame st "alice" ⟨"message.send", 0,
            .obj [("conversationId", .str "c1"), ("clientMsgId", .str "tok"),
              ("body", .str longBody)]⟩ 0
          = .ok { st with
                    store := [] ++ [m]
                    published := st.published ++ [⟨m.id, "c1", "alice", longBody, 0⟩] }
              [.ack "tok" m.id m.createdAt]) :=
  ⟨by norm_num [longBody],
   append_no_body_length_cap [] "c1" "alice" "tok" longBody 0
     (by norm_num [longBody]) (fun m hm => by simp at hm)
     (fun m hm => by simp at hm)⟩

/-! ### Token-bucket lemmas for the rate-limit property -/

/-- Looking a key up after `setBucket` stored a bucket under it. -/
theorem lookup_setBucket (l : List (String × TokenBucket)) (k : String)
    (v : TokenBucket) : (setBucket l k v).lookup k = some v := by
  induction l with
  | nil => simp [setBucket, List.lookup]
  | cons hd tl ih =>
    obtain ⟨k', v'⟩ := hd
    unfold setBucket
    by_cases h : k' = k
    · simp [h, List.lookup]
    · have hb : (k' == k) = false := by simp [h]
      have hb' : (k == k') = false := by simp [Ne.symm h]
      simp [hb, hb', List.lookup, ih]

/-- Unfolding equation for `RateLimiter.allow` when the sender's bucket
exists. -/
theorem rateLimiter_allow_some (rl : RateLimiter) (uid : String)
    (b : TokenBucket) (t : Nat) (h : rl.buckets.lookup uid = some b) :
    rl.allow uid t = ((b.allow t).fst, ⟨setBucket rl.buckets uid (b.allow t).snd⟩) := by
  unfold RateLimiter.allow
  rw [h]

/-- Unfolding equation for `RateLimiter.allow` for a fresh sender: a full bucket
with capacity 10 and quantum 500 ms is created at the call instant. -/
theorem rateLimiter_allow_none (rl : RateLimiter) (uid : String) (t : Nat)
    (h : rl.buckets.lookup uid = none) :
    rl.allow uid t
      = (((newTokenBucket 10 500 t).allow t).fst,
         ⟨setBucket rl.buckets uid ((newTokenBucket 10 500 t).allow t).snd⟩) := by
  unfold RateLimiter.allow
  rw [h]

/-- Calling `Allow` at the instant `lastRefill` points to: no time elapsed, so no refill
— the call is a pure token decrement (or a rejection). -/
theorem allow_no_refill (cap tok rate last : Nat) :
    TokenBucket.allow ⟨cap, tok, rate, last⟩ last
      = if 0 < tok then (true, ⟨cap, tok - 1, rate, last⟩)
        else (false, ⟨cap, tok, rate, last⟩) := by
  unfold TokenBucket.allow TokenBucket.refill
  simp

/-- One-step unfolding of `allowRun`. -/
theorem allowRun_cons (rl : RateLimiter) (uid : String) (t : Nat) (ts : List Nat) :
    allowRun rl uid (t :: ts)
      = ((rl.allow uid t).fst :: (allowRun (rl.allow uid t).snd uid ts).fst,
         (allowRun (rl.allow uid t).snd uid ts).snd) := rfl

/-- Running `allowRun` over an appended schedule runs the two halves in sequence. -/
theorem allowRun_append (rl : RateLimiter) (uid : String) (ts1 ts2 : List Nat) :
    allowRun rl uid (ts1 ++ ts2)
      = ((allowRun rl uid ts1).fst ++ (allowRun (allowRun rl uid ts1).snd uid ts2).fst,
         (allowRun (allowRun rl uid ts1).snd uid ts2).snd) := by
  induction ts1 generalizing rl with
  | nil => simp [allowRun]
  | cons t ts ih => simp [allowRun, ih]

/-- Draining an existing bucket: `n` calls in the same millisecond as
`lastRefill` all succeed while at least `n` tokens remain, each consuming one
token. -/
theorem allowRun_drain (n : Nat) :
    ∀ (l : List (String × TokenBucket)) (uid : String) (cap k rate t0 : Nat),
      l.lookup uid = some ⟨cap, k, rate, t0⟩ → n ≤ k →
      (allowRun ⟨l⟩ uid (List.replicate n t0)).fst = List.replicate n true ∧
      (allowRun ⟨l⟩ uid (List.replicate n t0)).snd.buckets.lookup uid
        = some ⟨cap, k - n, rate, t0⟩ := by
  induction n with
  | zero =>
    intro l uid cap k rate t0 h _
    simpa [allowRun] using h
  | succ n ih =>
    intro l uid cap k rate t0 h hn
    have hpos : 0 < k := by omega
    have hstep : RateLimiter.allow ⟨l⟩ uid t0
        = (true, ⟨setBucket l uid ⟨cap, k - 1, rate, t0⟩⟩) := by
      rw [rateLimiter_allow_some ⟨l⟩ uid ⟨cap, k, rate, t0⟩ t0 h, allow_no_refill,
        if_pos hpos]
    have hlook := lookup_setBucket l uid ⟨cap, k - 1, rate, t0⟩
    have hrec := ih (setBucket l uid ⟨cap, k - 1, rate, t0⟩) uid cap (k - 1) rate t0
      hlook (by omega)
    rw [List.replicate_succ, allowRun_cons, hstep]
    refine ⟨?_, ?_⟩
    · simp only [List.replicate_succ]
      exact congrArg (true :: ·) hrec.1
    · rw [show k - 1 - n = k - (n + 1) by omega] at hrec
      exact hrec.2

/-- C7: per-sender token bucket with capacity 10 and quantum 500 ms.  For a
fresh sender, the first 10 calls in one millisecond succeed and the 11th fails;
after exactly one quantum exactly one further call succeeds and the next fails
again.  In general a successful `Allow` consumes exactly one token from the
refilled bucket, and a failing `Allow` on a bucket of positive capacity leaves
the bucket completely unchanged. -/
theorem token_bucket_rate_limit (rl : RateLimiter) (uid : String) (t0 : Nat)
    (hfresh : rl.buckets.lookup uid = none) :
    (allowRun rl uid
        [t0, t0, t0, t0, t0, t0, t0, t0, t0, t0, t0, t0 + 500, t0 + 500]).fst
      = [true, true, true, true, true, true, true, true, true, true, false,
         true, false] ∧
    (∀ (tb : TokenBucket) (now : Nat), (tb.allow now).fst = true →
      (tb.allow now).snd.tokens + 1 = (tb.refill now).tokens) ∧
    (∀ (tb : TokenBucket) (now : Nat), 0 < tb.capacity →
      (tb.allow now).fst = false → (tb.allow now).snd = tb) := by
  refine ⟨?_, ?_, ?_⟩
  · -- the 13-call schedule
    have hsplit : ([t0, t0, t0, t0, t0, t0, t0, t0, t0, t0, t0, t0 + 500, t0 + 500]
        : List Nat) = t0 :: (List.replicate 9 t0 ++ [t0, t0 + 500, t0 + 500]) := rfl
    have hstep1 : rl.allow uid t0
        = (true, ⟨setBucket rl.buckets uid ⟨10, 9, 500, t0⟩⟩) := by
      rw [rateLimiter_allow_none rl uid t0 hfresh]
      rw [show newTokenBucket 10 500 t0 = ⟨10, 10, 500, t0⟩ from rfl, allow_no_refill,
        if_pos (by norm_num)]
    have hdrain := allowRun_drain 9 (setBucket rl.buckets uid ⟨10, 9, 500, t0⟩) uid
      10 9 500 t0 (lookup_setBucket _ _ _) (le_refl 9)
    rw [hsplit, allowRun_cons, hstep1]
    simp only []
    rw [allowRun_append]
    rw [hdrain.1]
    -- after the drain the bucket is empty; name the intermediate limiter state
    have h11 := rateLimiter_allow_some _ uid ⟨10, 0, 500, t0⟩ t0 hdrain.2
    rw [allow_no_refill, if_neg (by norm_num)] at h11
    have h11look := lookup_setBucket
      ((allowRun ⟨setBucket rl.buckets uid ⟨10, 9, 500, t0⟩⟩ uid
        (List.replicate 9 t0)).snd).buckets uid ⟨10, 0, 500, t0⟩
    have h12 := rateLimiter_allow_some _ uid ⟨10, 0, 500, t0⟩ (t0 + 500) h11look
    have hb12 : TokenBucket.allow ⟨10, 0, 500, t0⟩ (t0 + 500)
        = (true, ⟨10, 0, 500, t0 + 500⟩) := by
      unfold TokenBucket.allow TokenBucket.refill
      norm_num
    rw [hb12] at h12
    have h12look := lookup_setBucket
      (setBucket ((allowRun ⟨setBucket rl.buckets uid ⟨10, 9, 500, t0⟩⟩ uid
        (List.replicate 9 t0)).snd).buckets uid ⟨10, 0, 500, t0⟩) uid
      ⟨10, 0, 500, t0 + 500⟩
    have h13 := rateLimiter_allow_some _ uid ⟨10, 0, 500, t0 + 500⟩ (t0 + 500) h12look
    rw [allow_no_refill, if_neg (by norm_num)] at h13
    rw [allowRun_cons, h11]
    simp only []
    rw [allowRun_cons, h12]
    simp only []
    rw [allowRun_cons, h13]
    simp [allowRun]
  · -- success consumes exactly one token from the refilled bucket
    intro tb now htrue
    unfold TokenBucket.allow at htrue ⊢
    by_cases hc : 0 < (tb.refill now).tokens
    · simp only [if_pos hc]
      omega
    · rw [if_neg hc] at htrue
      simp at htrue
  · -- failure on a positive-capacity bucket mutates nothing
    intro tb now hcap hfalse
    unfold TokenBucket.allow at hfalse ⊢
    by_cases hc : 0 < (tb.refill now).tokens
    · rw [if_pos hc] at hfalse
      simp at hfalse
    · rw [if_neg hc]
      unfold TokenBucket.refill at hc ⊢
      by_cases hadd : 0 < (now - tb.lastRefill) / tb.refillRate
      · rw [if_pos hadd] at hc
        exfalso
        have : 0 < min tb.capacity (tb.tokens + (now - tb.lastRefill) / tb.refillRate) := by
          rw [Nat.lt_min]
          exact ⟨hcap, by omega⟩
        exact hc this
      · rw [if_neg hadd]

/-- C7 witness: the rate-limit theorem for a concrete fresh limiter, sender and
start instant. -/
theorem token_bucket_rate_limit_witness :
    (allowRun ⟨[]⟩ "alice" [0, 0, 0, 0, 0, 0, 0, 0, 0, 0, 0, 0 + 500, 0 + 500]).fst
      = [true, true, true, true, true, true, true, true, true, true, false,
         true, false] ∧
    (∀ (tb : TokenBucket) (now : Nat), (tb.allow now).fst = true →
      (tb.allow now).snd.tokens + 1 = (tb.refill now).tokens) ∧
    (∀ (tb : TokenBucket) (now : Nat), 0 < tb.capacity →
      (tb.allow now).fst = false → (tb.allow now).snd = tb) :=
  token_bucket_rate_limit ⟨[]⟩ "alice" 0 rfl

/-! ### Pagination completeness -/

/-- A list sorted for the Mongo order whose entries lie in pairwise different
seconds is strictly ordered by creation time. -/
theorem pairwise_newerThan_of {L : List Message} (hs : L.Pairwise keyLE)
    (hd : L.Pairwise diffSecond) : L.Pairwise newerThan :=
  (hs.and hd).imp (fun h => by
    rcases h with ⟨hk | ⟨heq, _⟩, hsec⟩
    · exact hk
    · exact absurd (congrArg (· / 1000) heq.symm) hsec)

/-- Two lists that are permutations of each other and both strictly ordered by
creation time are equal. -/
theorem eq_of_perm_of_newer {A B : List Message} (hp : A.Perm B)
    (hA : A.Pairwise newerThan) (hB : B.Pairwise newerThan) : A = B :=
  List.eq_of_perm_of_sorted hp hA hB

/-- In a strictly newest-first list, the last element is the oldest. -/
theorem getLast_le_createdAt :
    ∀ (M : List Message), M.Pairwise newerThan →
      ∀ (h : M ≠ []) (x : Message), x ∈ M →
        (M.getLast h).createdAt ≤ x.createdAt := by
  intro M
  induction M with
  | nil => intro _ h; exact absurd rfl h
  | cons a tl ih =>
    intro hp h x hx
    obtain ⟨hhead, htail⟩ := List.pairwise_cons.mp hp
    rcases List.mem_cons.mp hx with rfl | hx'
    · cases tl with
      | nil => simp [List.getLast]
      | cons b m =>
        rw [List.getLast_cons (by simp : (b :: m) ≠ [])]
        exact le_of_lt (hhead _ (List.getLast_mem (by simp)))
    · have htl : tl ≠ [] := List.ne_nil_of_mem hx'
      rw [List.getLast_cons htl]
      exact ih htail htl x hx'

/-- The key step of the pagination-completeness argument: filtering a strictly
newest-first, second-distinct list by `createdAt` strictly before the
whole-second round-trip of the page's last row keeps exactly the rows after the
page. -/
theorem filter_cursor_drop (M R : List Message) (hM : M ≠ [])
    (hstrict : (M ++ R).Pairwise newerThan)
    (hsec : (M ++ R).Pairwise diffSecond) :
    (M ++ R).filter
        (fun m => m.createdAt < rfc3339Parse (rfc3339Format ((M.getLast hM).createdAt)))
      = R := by
  have hv : rfc3339Parse (rfc3339Format ((M.getLast hM).createdAt))
      = (M.getLast hM).createdAt / 1000 * 1000 := rfl
  obtain ⟨hMstrict, hRstrict, hcross⟩ := List.pairwise_append.mp hstrict
  have hseccross := (List.pairwise_append.mp hsec).2.2
  rw [List.filter_append]
  have h1 : M.filter
      (fun m => m.createdAt < rfc3339Parse (rfc3339Format ((M.getLast hM).createdAt)))
      = [] := by
    rw [List.filter_eq_nil_iff]
    intro a ha
    have hle : (M.getLast hM).createdAt ≤ a.createdAt :=
      getLast_le_createdAt M hMstrict hM a ha
    have hfloor : (M.getLast hM).createdAt / 1000 * 1000 ≤ (M.getLast hM).createdAt :=
      Nat.div_mul_le_self _ 1000
    simp only [hv, decide_eq_true_eq]
    omega
  have h2 : R.filter
      (fun m => m.createdAt < rfc3339Parse (rfc3339Format ((M.getLast hM).createdAt)))
      = R := by
    rw [List.filter_eq_self]
    intro a ha
    have hlt : a.createdAt < (M.getLast hM).createdAt :=
      hcross _ (List.getLast_mem hM) a ha
    have hne : (M.getLast hM).createdAt / 1000 ≠ a.createdAt / 1000 :=
      hseccross _ (List.getLast_mem hM) a ha
    have hdivle : a.createdAt / 1000 ≤ (M.getLast hM).createdAt / 1000 :=
      Nat.div_le_div_right (le_of_lt hlt)
    have hdivlt : a.createdAt / 1000 < (M.getLast hM).createdAt / 1000 :=
      lt_of_le_of_ne hdivle (fun he => hne he.symm)
    have hmod := Nat.div_add_mod a.createdAt 1000
    have hmodlt : a.createdAt % 1000 < 1000 := Nat.mod_lt _ (by norm_num)
    have hmul : (a.createdAt / 1000 + 1) * 1000
        ≤ (M.getLast hM).createdAt / 1000 * 1000 :=
      Nat.mul_le_mul_right 1000 hdivlt
    simp only [hv, decide_eq_true_eq]
    omega
  rw [h1, h2, List.nil_append]

/-- The effective page size is always at least one. -/
theorem one_le_effectiveLimit (limit : Int) : 1 ≤ effectiveLimit limit := by
  unfold effectiveLimit
  split
  · norm_num
  · rename_i h
    push_neg at h
    omega

/-- Shape of a `GetMessages` response when the (sorted, filtered) rows fit in
one page: everything is returned, `hasMore` is false, no cursor. -/
theorem getMessages_last_page (store : List Message) (cid : String)
    (before : BeforeCursor) (limit : Int) (R : List Message)
    (hR : List.insertionSort keyLE (applyCursor (conversationMessages store cid) before) = R)
    (hcase : R.length ≤ effectiveLimit limit) :
    getMessages store cid before limit = ⟨R, false, none⟩ := by
  simp only [getMessages]
  rw [hR, List.take_of_length_le (by omega : R.length ≤ effectiveLimit limit + 1)]
  rw [if_neg (by omega : ¬ effectiveLimit limit < R.length),
    decide_eq_false (by omega : ¬ effectiveLimit limit < R.length)]
  simp

/-- Shape of a `GetMessages` response when more rows remain: the first
`effectiveLimit` rows are returned, `hasMore` is true, and the cursor encodes
the last returned row's creation time truncated to whole seconds. -/
theorem getMessages_full_page (store : List Message) (cid : String)
    (before : BeforeCursor) (limit : Int) (R : List Message)
    (hR : List.insertionSort keyLE (applyCursor (conversationMessages store cid) before) = R)
    (hcase : effectiveLimit limit < R.length) :
    getMessages store cid before limit
      = ⟨R.take (effectiveLimit limit), true,
         (R.take (effectiveLimit limit)).getLast?.map
           (fun m => rfc3339Format m.createdAt)⟩ := by
  simp only [getMessages]
  rw [hR, List.length_take, min_eq_left (by omega : effectiveLimit limit + 1 ≤ R.length)]
  rw [if_pos (by omega : effectiveLimit limit < effectiveLimit limit + 1),
    decide_eq_true (by omega : effectiveLimit limit < effectiveLimit limit + 1)]
  rw [List.take_take, min_eq_left (by omega : effectiveLimit limit ≤ effectiveLimit limit + 1)]
  simp

/-- The paging loop collects exactly the remaining suffix of the sorted
conversation rows, provided all rows lie in pairwise different whole seconds
and enough round trips are allowed. -/
theorem collectPages_suffix (store : List Message) (cid : String) (limit : Int)
    (hsec : (conversationMessages store cid).Pairwise diffSecond) :
    ∀ (fuel : Nat) (before : BeforeCursor) (R : List Message),
      List.insertionSort keyLE (applyCursor (conversationMessages store cid) before) = R →
      R <:+ List.insertionSort keyLE (conversationMessages store cid) →
      R.length ≤ fuel * effectiveLimit limit →
      collectPages store cid limit fuel before = R := by
  have hperm : (List.insertionSort keyLE (conversationMessages store cid)).Perm
      (conversationMessages store cid) := List.perm_insertionSort keyLE _
  have hLsec : (List.insertionSort keyLE (conversationMessages store cid)).Pairwise
      diffSecond := (hperm.pairwise_iff (fun h => Ne.symm h)).mpr hsec
  have hLsorted := List.sorted_insertionSort keyLE (conversationMessages store cid)
  have hLstrict := pairwise_newerThan_of hLsorted hLsec
  intro fuel
  induction fuel with
  | zero =>
    intro before R _ _ hlen
    have hnil : R = [] := List.eq_nil_of_length_eq_zero (by omega)
    simp [collectPages, hnil]
  | succ fuel ih =>
    intro before R hR hsuf hlen
    have hlim := one_le_effectiveLimit limit
    by_cases hcase : R.length ≤ effectiveLimit limit
    · simp only [collectPages]
      rw [getMessages_last_page store cid before limit R hR hcase]
      simp
    · push_neg at hcase
      simp only [collectPages]
      rw [getMessages_full_page store cid before limit R hR hcase]
      have htke : (R.take (effectiveLimit limit)) ≠ [] := by
        have hlen2 : (R.take (effectiveLimit limit)).length = effectiveLimit limit := by
          rw [List.length_take]
          exact min_eq_left (le_of_lt hcase)
        intro hnil
        rw [hnil] at hlen2
        simp at hlen2
        omega
      rw [List.getLast?_eq_getLast _ htke]
      simp only [Option.map_some', if_pos rfl]
      -- the remaining rows after this page
      obtain ⟨W, hW⟩ := hsuf
      have hL : List.insertionSort keyLE (conversationMessages store cid)
          = (W ++ R.take (effectiveLimit limit)) ++ R.drop (effectiveLimit limit) := by
        rw [List.append_assoc, List.take_append_drop]
        exact hW.symm
      have hMne : (W ++ R.take (effectiveLimit limit)) ≠ [] := by
        intro hnil
        rcases List.append_eq_nil.mp hnil with ⟨_, h2⟩
        exact htke h2
      have hlast : (W ++ R.take (effectiveLimit limit)).getLast hMne
          = (R.take (effectiveLimit limit)).getLast htke :=
        List.getLast_append_of_ne_nil htke
      have hstrictM := hL ▸ hLstrict
      have hsecM := hL ▸ hLsec
      have hfc := filter_cursor_drop (W ++ R.take (effectiveLimit limit))
        (R.drop (effectiveLimit limit)) hMne hstrictM hsecM
      rw [hlast] at hfc
      have hfilterL : (List.insertionSort keyLE (conversationMessages store cid)).filter
          (fun m => m.createdAt < rfc3339Parse (rfc3339Format
            (((R.take (effectiveLimit limit)).getLast htke).createdAt)))
          = R.drop (effectiveLimit limit) := by
        rw [hL]
        exact hfc
      have hpfilter : (conversationMessages store cid).filter
          (fun m => m.createdAt < rfc3339Parse (rfc3339Format
            (((R.take (effectiveLimit limit)).getLast htke).createdAt)))
          |>.Perm (R.drop (effectiveLimit limit)) := by
        rw [← hfilterL]
        exact (hperm.filter _).symm
      have hR' : List.insertionSort keyLE (applyCursor (conversationMessages store cid)
          (.valid (rfc3339Parse (rfc3339Format
            (((R.take (effectiveLimit limit)).getLast htke).createdAt)))))
          = R.drop (effectiveLimit limit) := by
        apply eq_of_perm_of_newer
        · exact (List.perm_insertionSort keyLE _).trans hpfilter
        · exact pairwise_newerThan_of (List.sorted_insertionSort keyLE _)
            (((List.perm_insertionSort keyLE _).pairwise_iff
              (fun h => Ne.symm h)).mpr (hsec.filter _))
        · exact List.Pairwise.sublist
            (((List.drop_suffix (effectiveLimit limit) R).trans ⟨W, hW⟩).sublist) hLstrict
      have hsuf' : R.drop (effectiveLimit limit) <:+
          List.insertionSort keyLE (conversationMessages store cid) :=
        (List.drop_suffix (effectiveLimit limit) R).trans ⟨W, hW⟩
      have hlen' : (R.drop (effectiveLimit limit)).length ≤ fuel * effectiveLimit limit := by
        rw [List.length_drop]
        refine Nat.sub_le_iff_le_add.mpr ?_
        rw [← Nat.succ_mul]
        exact hlen
      rw [ih (.valid (rfc3339Parse (rfc3339Format
        (((R.take (effectiveLimit limit)).getLast htke).createdAt))))
        (R.drop (effectiveLimit limit)) hR' hsuf' hlen']
      exact List.take_append_drop _ R

/-- C3 as stated is false: paging a 2-message conversation to exhaustion with
page size 1 yields only 1 message when the two rows share a whole second. -/
theorem pagination_incomplete_same_second :
    (conversationMessages sameSecondStore "conv").length = 2 ∧
    (collectPages sameSecondStore "conv" 1 10 .missing).length = 1 := ⟨rfl, rfl⟩

/-- C3 amended: when all rows of the conversation were created in pairwise
different whole seconds, paging with the returned cursor until `hasMore` is
false yields exactly the stored messages — no duplicates, no gaps — ordered
newest-first by (creation time, identifier) descending.  `fuel` bounds the
number of round trips; one per stored message always suffices. -/
theorem pagination_complete_distinct_seconds (store : List Message) (cid : String)
    (limit : Int) (fuel : Nat)
    (hsec : (conversationMessages store cid).Pairwise diffSecond)
    (hfuel : (conversationMessages store cid).length ≤ fuel * effectiveLimit limit) :
    collectPages store cid limit fuel .missing
        = List.insertionSort keyLE (conversationMessages store cid) ∧
    (collectPages store cid limit fuel .missing).Perm
        (conversationMessages store cid) ∧
    (collectPages store cid limit fuel .missing).Pairwise keyLE := by
  have h := collectPages_suffix store cid limit hsec fuel .missing
    (List.insertionSort keyLE (conversationMessages store cid)) rfl
    (List.suffix_refl _)
    (by
      rw [(List.perm_insertionSort keyLE (conversationMessages store cid)).length_eq]
      exact hfuel)
  refine ⟨h, ?_, ?_⟩
  · rw [h]
    exact List.perm_insertionSort keyLE _
  · rw [h]
    exact List.sorted_insertionSort keyLE _

/-- C3 witness: the amended completeness theorem at page size 1 on the
3-message store, with its hypotheses discharged concretely. -/
theorem pagination_complete_distinct_seconds_witness :
    (conversationMessages distinctSecondStore "conv").Pairwise diffSecond ∧
    (conversationMessages distinctSecondStore "conv").length
      ≤ 3 * effectiveLimit 1 ∧
    (collectPages distinctSecondStore "conv" 1 3 .missing
        = List.insertionSort keyLE (conversationMessages distinctSecondStore "conv") ∧
      (collectPages distinctSecondStore "conv" 1 3 .missing).Perm
        (conversationMessages distinctSecondStore "conv") ∧
      (collectPages distinctSecondStore "conv" 1 3 .missing).Pairwise keyLE) :=
  ⟨by decide, by decide,
   pagination_complete_distinct_seconds distinctSecondStore "conv" 1 3
     (by decide) (by decide)⟩

end ChatService

